import Mathlib

/-!
Verification of the ketty protoc plugin generator (package ketty, file ketty.go).
The generator is embedded shallowly: the descriptor tree is a family of
structures mirroring the protobuf descriptor messages the code reads, the
output stream written through g.P is a list of emitted lines, and every
generator function becomes a pure Lean function from descriptors to lines.
-/

/-- One RPC method descriptor: name, input and output type references and the
two streaming flags, as read by the generator through the protobuf getters. -/
structure MethodDescriptorProto where
  name : String
  inputType : String
  outputType : String
  clientStreaming : Bool
  serverStreaming : Bool
deriving DecidableEq, Repr

/-- One service descriptor: name and the ordered method list. -/
structure ServiceDescriptorProto where
  name : String
  method : List MethodDescriptorProto
deriving DecidableEq, Repr

/-- Dynamic value stored for an extension inside a message option set.
proto.GetExtension returns interface\x7b\x7d; the generator then performs Go
type assertions on it, so the model keeps the dynamic type: a (possibly nil)
pointer to bool, a (possibly nil) pointer to string, or a value of any other
dynamic type. -/
inductive GoValue where
  | boolPtr : Option Bool → GoValue
  | stringPtr : Option String → GoValue
  | other : GoValue
deriving DecidableEq, Repr

/-- The option set of a message: for each of the three ketty extensions, the
stored dynamic value, or none when the extension is not set (in which case
proto.GetExtension reports an error). -/
structure MessageOptions where
  useKettyHttpExtend : Option GoValue
  transport : Option GoValue
  marshal : Option GoValue
deriving DecidableEq, Repr

/-- A message descriptor: name plus the optional option set. -/
structure DescriptorProto where
  name : String
  options : Option MessageOptions
deriving DecidableEq, Repr

/-- A file descriptor: package name, services and messages. -/
structure FileDescriptorProto where
  pkg : String
  service : List ServiceDescriptorProto
  messageType : List DescriptorProto
deriving DecidableEq, Repr

/-- The generator environment: the external type-name resolver g.typeName,
and the package alias names fixed by Init (contextPkg, kettyPkg) together with
the import prefix of the surrounding generator. -/
structure GenEnv where
  typeName : String → String
  contextPkg : String
  kettyPkg : String
  importPre : String

/-- generator.CamelCase helpers: ASCII classification used by the protobuf
generator naming code. -/
def isASCIILower (c : Char) : Bool :=
  ('a' ≤ c) && (c ≤ 'z')

/-- ASCII digit test of the protobuf generator naming code. -/
def isASCIIDigit (c : Char) : Bool :=
  ('0' ≤ c) && (c ≤ '9')

/-- Main loop of generator.CamelCase, one character at a time. The Boolean
records whether the previous emitted character absorbs a following lowercase
run verbatim (true after an emitted letter or kept underscore, false after a
skipped underscore or a digit), which reproduces the nested absorption loop of
the Go code as a structural recursion. -/
def camelAux : Bool → List Char → List Char
  | _, [] => []
  | absorb, c :: rest =>
    if absorb && isASCIILower c then
      c :: camelAux true rest
    else if c == '_' && (match rest with | c2 :: _ => isASCIILower c2 | [] => false) then
      camelAux false rest
    else if isASCIIDigit c then
      c :: camelAux false rest
    else
      (if isASCIILower c then c.toUpper else c) :: camelAux true rest

/-- generator.CamelCase from the protobuf generator package (an external
collaborator of this file): leading underscore becomes X, an underscore
followed by a lowercase letter is dropped with the letter capitalised, and
lowercase runs after an emitted character are kept verbatim. -/
def CamelCase (s : String) : String :=
  match s.data with
  | [] => ""
  | c :: rest =>
    if c == '_' then String.mk ('X' :: camelAux false rest)
    else String.mk (camelAux false (c :: rest))

/-- reservedClientName: the reserved client-side name set; the map literal in
the source is empty, so membership is constantly false. -/
def reservedClientName : String → Bool :=
  fun _ => false

/-- unexport lowercases the first byte of the identifier and keeps the rest.
The Go body is strings.ToLower(s[:1]) + s[1:], whose slice expressions are out
of bounds on the empty string and panic there; the panic is modelled as none. -/
def unexport (s : String) : Option String :=
  match s.data with
  | [] => none
  | c :: rest => some (String.mk (Char.toLower c :: rest))

/-- proto.GetExtension on a message option set: an error when the option set
is nil or the extension is not present, otherwise the stored dynamic value. -/
def getExtension (options : Option MessageOptions) (field : MessageOptions → Option GoValue) :
    Except Unit GoValue :=
  match options with
  | none => Except.error ()
  | some o =>
    match field o with
    | none => Except.error ()
    | some v => Except.ok v

/-- The resolved ketty option record built by getKettyOptions. -/
structure kettyOptions where
  isUseKettyHttpExtend : Bool
  transport : String
  marshal : String
deriving DecidableEq, Repr

/-- getKettyOptions: starts from the zero record and, for each of the three
extensions in turn, on a successful fetch performs the unchecked Go type
assertion (a wrong dynamic type panics, modelled as none) and copies the
pointed-to value when the pointer is non-nil. -/
def getKettyOptions (message : DescriptorProto) : Option kettyOptions := do
  let opts : kettyOptions := { isUseKettyHttpExtend := false, transport := "", marshal := "" }
  let opts ←
    match getExtension message.options MessageOptions.useKettyHttpExtend with
    | Except.error _ => some opts
    | Except.ok v =>
      match v with
      | GoValue.boolPtr p =>
        some (match p with
          | none => opts
          | some b => { opts with isUseKettyHttpExtend := b })
      | _ => none
  let opts ←
    match getExtension message.options MessageOptions.transport with
    | Except.error _ => some opts
    | Except.ok v =>
      match v with
      | GoValue.stringPtr p =>
        some (match p with
          | none => opts
          | some s => { opts with transport := s })
      | _ => none
  let opts ←
    match getExtension message.options MessageOptions.marshal with
    | Except.error _ => some opts
    | Except.ok v =>
      match v with
      | GoValue.stringPtr p =>
        some (match p with
          | none => opts
          | some s => { opts with marshal := s })
      | _ => none
  some opts

/-- generateOptionMethods: emits the http-extend marker method, then the
marshal accessor, then the transport accessor, each only when its resolved
field is set, exactly in the order of the three if blocks of the source. -/
def generateOptionMethods (message : DescriptorProto) (opts : kettyOptions) : List String :=
  (if opts.isUseKettyHttpExtend then
    [ "func (*" ++ message.name ++ ") KettyHttpExtendMessage() \x7b\x7d",
      "" ]
  else [])
  ++
  (if opts.marshal ≠ "" then
    [ "func (*" ++ message.name ++ ") KettyMarshal() string \x7b",
      "return \"" ++ opts.marshal ++ "\"",
      "\x7d",
      "" ]
  else [])
  ++
  (if opts.transport ≠ "" then
    [ "func (*" ++ message.name ++ ") KettyTransport() string \x7b",
      "return \"" ++ opts.transport ++ "\"",
      "\x7d",
      "" ]
  else [])

/-- generateClientSignature helper: the client method identifier is the
CamelCased method name, suffixed with an underscore when it collides with the
reserved client name set (source lines 279-283). -/
def clientMethName (origMethName : String) : String :=
  let methName := CamelCase origMethName
  if reservedClientName methName then methName ++ "_" else methName

/-- generateClientSignature: the client-side signature string for a method,
built exactly as by the source: request argument dropped for client-streaming
methods, response type replaced by the streaming handle type name when either
streaming flag is set. -/
def generateClientSignature (env : GenEnv) (servName : String)
    (method : MethodDescriptorProto) : String :=
  let origMethName := method.name
  let methName := clientMethName origMethName
  let reqArg := ", in *" ++ env.typeName method.inputType
  let reqArg := if method.clientStreaming then "" else reqArg
  let respName := "*" ++ env.typeName method.outputType
  let respName :=
    if method.serverStreaming || method.clientStreaming then
      servName ++ "_" ++ CamelCase origMethName ++ "Client"
    else respName
  methName ++ "(ctx " ++ env.contextPkg ++ ".Context" ++ reqArg ++ ") (" ++
    respName ++ ", error)"

/-- generateClientMethod: the emitted method block. The source computes
methName and outType, prints the signature line, then the fixed unary body;
fullServName and descExpr are parameters the body never uses (the sname line
that used them is commented out in the source). -/
def generateClientMethod (env : GenEnv) (servName fullServName serviceDescVar : String)
    (method : MethodDescriptorProto) (descExpr : String) : List String :=
  let methName := CamelCase method.name
  let outType := env.typeName method.outputType
  [ "func (this *Ketty" ++ servName ++ "Client) " ++
      generateClientSignature env servName method ++ "\x7b",
    "out := new(" ++ outType ++ ")",
    "err := this.client.Invoke(ctx, " ++ servName ++ "Handle, \"" ++ methName ++
      "\", in, out)",
    "if err != nil \x7b return nil, err \x7d",
    "return out, nil",
    "\x7d",
    "" ]

/-- The method loop of generateService: walks the method list in declaration
order with the two counters methodIndex and streamIndex, pairing every method
with its descriptor expression (Methods slot for unary methods, Streams slot
for streaming ones) exactly as source lines 259-274 compute descExpr. -/
def descExprLoop (serviceDescVar : String) :
    List MethodDescriptorProto → Nat → Nat → List (MethodDescriptorProto × String)
  | [], _, _ => []
  | method :: rest, methodIndex, streamIndex =>
    if !method.serverStreaming && !method.clientStreaming then
      (method, "&" ++ serviceDescVar ++ ".Methods[" ++ toString methodIndex ++ "]") ::
        descExprLoop serviceDescVar rest (methodIndex + 1) streamIndex
    else
      (method, "&" ++ serviceDescVar ++ ".Streams[" ++ toString streamIndex ++ "]") ::
        descExprLoop serviceDescVar rest methodIndex (streamIndex + 1)

/-- generateService: handle type, handle instance, client type, constructor,
then one client method per RPC driven through the descriptor-expression loop. -/
def generateService (env : GenEnv) (file : FileDescriptorProto)
    (service : ServiceDescriptorProto) : List String :=
  let origServName := service.name
  let fullServName :=
    if file.pkg ≠ "" then file.pkg ++ "." ++ origServName else origServName
  let servName := CamelCase origServName
  let handleT := servName ++ "HandleT"
  let serviceDescVar := "_" ++ servName ++ "_serviceDesc"
  [ "type " ++ handleT ++ " struct \x7b",
    "desc *grpc.ServiceDesc",
    "\x7d",
    "",
    "func (h *" ++ handleT ++ ") Implement() interface\x7b\x7d \x7b",
    "return h.desc",
    "\x7d",
    "",
    "func (h *" ++ handleT ++ ") ServiceName() string \x7b",
    "return h.desc.ServiceName",
    "\x7d",
    "",
    "var " ++ servName ++ "Handle = &" ++ handleT ++ "\x7b desc : &" ++
      serviceDescVar ++ " \x7d",
    "",
    "type Ketty" ++ servName ++ "Client struct \x7b",
    "client " ++ env.kettyPkg ++ ".Client",
    "\x7d",
    "",
    "func NewKetty" ++ servName ++ "Client (client " ++ env.kettyPkg ++
      ".Client) *Ketty" ++ servName ++ "Client \x7b",
    "return &Ketty" ++ servName ++ "Client\x7bclient\x7d",
    "\x7d",
    "" ]
  ++ (descExprLoop serviceDescVar service.method 0 0).flatMap
      (fun p => generateClientMethod env servName fullServName serviceDescVar p.1 p.2)

/-- The fixed header lines Generate prints before the services. -/
def headerLines (env : GenEnv) : List String :=
  [ "// Reference imports to suppress errors if they are not otherwise used.",
    "var _ " ++ env.kettyPkg ++ ".Dummy",
    "",
    "// This is a compile-time assertion to ensure that this generated file",
    "// is compatible with the ketty package it is being compiled against.",
    "" ]

/-- The per-message part of the Generate loop: messages with a nil option set
are skipped, otherwise the options are resolved (none when the resolution
panics on a wrongly typed stored value) and the option methods emitted. -/
def generateMessageBlock (message : DescriptorProto) : Option (List String) :=
  match message.options with
  | none => some []
  | some _ => (getKettyOptions message).map (generateOptionMethods message)

/-- Generate: returns immediately with no output when the file declares no
services; otherwise prints the header, every service and the option methods
of every annotated message. The outer Option is the panic channel of the
option resolution. -/
def Generate (env : GenEnv) (file : FileDescriptorProto) : Option (List String) :=
  if file.service.length = 0 then some []
  else do
    let msgBlocks ← file.messageType.mapM generateMessageBlock
    some (headerLines env ++ file.service.flatMap (generateService env file) ++
      msgBlocks.flatten)

/-- Simplified path.Join used by GenerateImports for the ketty package path. -/
def pathJoin (a b : String) : String :=
  if a = "" then b else a ++ "/" ++ b

/-- The kettyPkgPath constant of the source. -/
def kettyPkgPath : String :=
  "github.com/yyzybb537/ketty"

/-- GenerateImports: nothing when the file declares no services, otherwise
the single ketty import block. -/
def GenerateImports (env : GenEnv) (file : FileDescriptorProto) : List String :=
  if file.service.length = 0 then []
  else
    [ "import (",
      env.kettyPkg ++ " \"" ++ pathJoin env.importPre kettyPkgPath ++ "\"",
      ")",
      "" ]

/-! ### Helper lemmas about strings and the method loop -/

/-- Appending different suffixes to a common prefix yields different strings. -/
theorem app_right_ne (s : String) {a b : String} (h : a ≠ b) : s ++ a ≠ s ++ b := by
  intro he
  apply h
  apply String.ext
  have hd : s.data ++ a.data = s.data ++ b.data := by
    simpa using String.ext_iff.mp he
  exact List.append_cancel_left hd

/-- A generated func line never equals a generated return line. -/
theorem funcLine_ne_returnLine (n x y : String) :
    ("func (*" ++ n ++ x) ≠ ("return \"" ++ y ++ "\"") := by
  intro he
  have h : (some 'f' : Option Char) = some 'r' :=
    congrArg (fun s => s.data.head?) he
  exact nomatch h

/-- A generated func line never equals the closing-brace line. -/
theorem funcLine_ne_rbrace (n x : String) :
    ("func (*" ++ n ++ x) ≠ ("\x7d" : String) := by
  intro he
  have h : (some 'f' : Option Char) = some '\x7d' :=
    congrArg (fun s => s.data.head?) he
  exact nomatch h

/-- A generated func line never equals the blank separator line. -/
theorem funcLine_ne_empty (n x : String) :
    ("func (*" ++ n ++ x) ≠ ("" : String) := by
  intro he
  have h : (some 'f' : Option Char) = none :=
    congrArg (fun s => s.data.head?) he
  exact nomatch h

/-- The first components of the descriptor-expression loop are the methods
themselves, in declaration order. -/
theorem descExprLoop_map_fst (sdv : String) :
    ∀ (ms : List MethodDescriptorProto) (a b : Nat),
      (descExprLoop sdv ms a b).map Prod.fst = ms := by
  intro ms
  induction ms with
  | nil => intro a b; rfl
  | cons m rest ih =>
    intro a b
    cases hs : m.serverStreaming <;> cases hc : m.clientStreaming <;>
      simp [descExprLoop, hs, hc, ih]

/-- The unary sublist of the loop output is the unary sublist of the input,
in declaration order. -/
theorem descExprLoop_filter_unary_fst (sdv : String) :
    ∀ (ms : List MethodDescriptorProto) (a b : Nat),
      ((descExprLoop sdv ms a b).filter
          (fun p => !p.1.serverStreaming && !p.1.clientStreaming)).map Prod.fst
        = ms.filter (fun m => !m.serverStreaming && !m.clientStreaming) := by
  intro ms
  induction ms with
  | nil => intro a b; rfl
  | cons m rest ih =>
    intro a b
    cases hs : m.serverStreaming <;> cases hc : m.clientStreaming <;>
      simp [descExprLoop, List.filter_cons, hs, hc, ih]

/-- The descriptor expressions of the unary methods are consecutive Methods
slots starting at the initial value of methodIndex. -/
theorem descExprLoop_filter_unary_snd (sdv : String) :
    ∀ (ms : List MethodDescriptorProto) (a b : Nat),
      ((descExprLoop sdv ms a b).filter
          (fun p => !p.1.serverStreaming && !p.1.clientStreaming)).map Prod.snd
        = (List.range' a
            (ms.filter (fun m => !m.serverStreaming && !m.clientStreaming)).length).map
            (fun i => "&" ++ sdv ++ ".Methods[" ++ toString i ++ "]") := by
  intro ms
  induction ms with
  | nil => intro a b; rfl
  | cons m rest ih =>
    intro a b
    cases hs : m.serverStreaming <;> cases hc : m.clientStreaming <;>
      simp [descExprLoop, List.filter_cons, hs, hc, List.range'_succ, ih]

/-- The streaming sublist of the loop output is the streaming sublist of the
input, in declaration order. -/
theorem descExprLoop_filter_stream_fst (sdv : String) :
    ∀ (ms : List MethodDescriptorProto) (a b : Nat),
      ((descExprLoop sdv ms a b).filter
          (fun p => p.1.serverStreaming || p.1.clientStreaming)).map Prod.fst
        = ms.filter (fun m => m.serverStreaming || m.clientStreaming) := by
  intro ms
  induction ms with
  | nil => intro a b; rfl
  | cons m rest ih =>
    intro a b
    cases hs : m.serverStreaming <;> cases hc : m.clientStreaming <;>
      simp [descExprLoop, List.filter_cons, hs, hc, ih]

/-- The descriptor expressions of the streaming methods are consecutive
Streams slots starting at the initial value of streamIndex. -/
theorem descExprLoop_filter_stream_snd (sdv : String) :
    ∀ (ms : List MethodDescriptorProto) (a b : Nat),
      ((descExprLoop sdv ms a b).filter
          (fun p => p.1.serverStreaming || p.1.clientStreaming)).map Prod.snd
        = (List.range' b
            (ms.filter (fun m => m.serverStreaming || m.clientStreaming)).length).map
            (fun i => "&" ++ sdv ++ ".Streams[" ++ toString i ++ "]") := by
  intro ms
  induction ms with
  | nil => intro a b; rfl
  | cons m rest ih =>
    intro a b
    cases hs : m.serverStreaming <;> cases hc : m.clientStreaming <;>
      simp [descExprLoop, List.filter_cons, hs, hc, List.range'_succ, ih]

/-! ### Claim C1 -/

/-- Claim C1: in generateService, each unary method (both streaming flags
false) receives the descriptor expression naming Methods slot i where i is
its 0-based position among the unary methods in declaration order (i ranging
over 0..U-1), each streaming method (either flag set) receives the Streams
slot j of its 0-based position among the streaming methods in declaration
order (j ranging over 0..S-1); the two counters are independent and both
partitions preserve declaration order. -/
theorem generateService_partitions_methods (servName : String)
    (methods : List MethodDescriptorProto) :
    (descExprLoop ("_" ++ servName ++ "_serviceDesc") methods 0 0).map Prod.fst = methods
    ∧ ((descExprLoop ("_" ++ servName ++ "_serviceDesc") methods 0 0).filter
        (fun p => !p.1.serverStreaming && !p.1.clientStreaming)).map Prod.fst
      = methods.filter (fun m => !m.serverStreaming && !m.clientStreaming)
    ∧ ((descExprLoop ("_" ++ servName ++ "_serviceDesc") methods 0 0).filter
        (fun p => !p.1.serverStreaming && !p.1.clientStreaming)).map Prod.snd
      = (List.range
          (methods.filter (fun m => !m.serverStreaming && !m.clientStreaming)).length).map
          (fun i => "&" ++ ("_" ++ servName ++ "_serviceDesc") ++ ".Methods[" ++
            toString i ++ "]")
    ∧ ((descExprLoop ("_" ++ servName ++ "_serviceDesc") methods 0 0).filter
        (fun p => p.1.serverStreaming || p.1.clientStreaming)).map Prod.fst
      = methods.filter (fun m => m.serverStreaming || m.clientStreaming)
    ∧ ((descExprLoop ("_" ++ servName ++ "_serviceDesc") methods 0 0).filter
        (fun p => p.1.serverStreaming || p.1.clientStreaming)).map Prod.snd
      = (List.range
          (methods.filter (fun m => m.serverStreaming || m.clientStreaming)).length).map
          (fun i => "&" ++ ("_" ++ servName ++ "_serviceDesc") ++ ".Streams[" ++
            toString i ++ "]") := by
  refine ⟨descExprLoop_map_fst _ methods 0 0,
          descExprLoop_filter_unary_fst _ methods 0 0, ?_,
          descExprLoop_filter_stream_fst _ methods 0 0, ?_⟩
  · rw [List.range_eq_range']
    exact descExprLoop_filter_unary_snd _ methods 0 0
  · rw [List.range_eq_range']
    exact descExprLoop_filter_stream_snd _ methods 0 0

/-! ### Claim C2 -/

/-- A message whose option set stores the http-extend extension under a
string pointer instead of the expected bool pointer. -/
def badTypedMessage : DescriptorProto :=
  { name := "Bad",
    options := some
      { useKettyHttpExtend := some (GoValue.stringPtr (some "yes")),
        transport := none,
        marshal := none } }

/-- Claim C2 counterexample: on a message storing the useKettyHttpExtend
extension under a mismatched dynamic type, getKettyOptions does not resolve
to any record: the unchecked type assertion panics (modelled as none), so
resolution is not total and the field does not silently default. -/
theorem getKettyOptions_mismatch_panics :
    getKettyOptions badTypedMessage = none := by
  rfl

/-- Spec-side well-typedness of a stored option set: every stored extension
value carries the expected dynamic pointer type (bool pointer for the
http-extend flag, string pointer for transport and marshal). -/
def wellTypedStore (o : MessageOptions) : Prop :=
  (∀ v, o.useKettyHttpExtend = some v → ∃ p, v = GoValue.boolPtr p)
  ∧ (∀ v, o.transport = some v → ∃ p, v = GoValue.stringPtr p)
  ∧ (∀ v, o.marshal = some v → ∃ p, v = GoValue.stringPtr p)

/-- Spec-side resolved value of a bool extension: the pointed-to value when a
well-typed non-nil pointer is stored, false otherwise. -/
def resolvedBool : Option GoValue → Bool
  | some (GoValue.boolPtr (some b)) => b
  | _ => false

/-- Spec-side resolved value of a string extension: the pointed-to value when
a well-typed non-nil pointer is stored, the empty string otherwise. -/
def resolvedString : Option GoValue → String
  | some (GoValue.stringPtr (some s)) => s
  | _ => ""

/-- Claim C2 amended: on every message whose option set stores the three
ketty extensions only under their expected pointer types, getKettyOptions
never panics and returns the record in which an unset extension or a stored
nil pointer leaves the field at its zero value (false or empty string); a
stored value of a mismatched dynamic type instead panics, as the
counterexample shows. -/
theorem getKettyOptions_total_on_wellTyped (n : String) (o : MessageOptions)
    (h : wellTypedStore o) :
    getKettyOptions { name := n, options := some o }
      = some { isUseKettyHttpExtend := resolvedBool o.useKettyHttpExtend,
               transport := resolvedString o.transport,
               marshal := resolvedString o.marshal } := by
  obtain ⟨h1, h2, h3⟩ := h
  obtain ⟨u, t, m⟩ := o
  have hu : u = none ∨ ∃ p, u = some (GoValue.boolPtr p) := by
    cases u with
    | none => exact Or.inl rfl
    | some v =>
      obtain ⟨p, hp⟩ := h1 v rfl
      exact Or.inr ⟨p, by rw [hp]⟩
  have ht : t = none ∨ ∃ p, t = some (GoValue.stringPtr p) := by
    cases t with
    | none => exact Or.inl rfl
    | some v =>
      obtain ⟨p, hp⟩ := h2 v rfl
      exact Or.inr ⟨p, by rw [hp]⟩
  have hm : m = none ∨ ∃ p, m = some (GoValue.stringPtr p) := by
    cases m with
    | none => exact Or.inl rfl
    | some v =>
      obtain ⟨p, hp⟩ := h3 v rfl
      exact Or.inr ⟨p, by rw [hp]⟩
  rcases hu with rfl | ⟨p1, rfl⟩ <;> rcases ht with rfl | ⟨p2, rfl⟩ <;>
    rcases hm with rfl | ⟨p3, rfl⟩ <;>
    (try cases p1) <;> (try cases p2) <;> (try cases p3) <;> rfl

/-- A concrete well-typed store exercising all three resolution outcomes. -/
def wtStore : MessageOptions :=
  { useKettyHttpExtend := some (GoValue.boolPtr (some true)),
    transport := some (GoValue.stringPtr (some "http")),
    marshal := none }

/-- Witness for the amended claim C2 at a concrete well-typed option store. -/
theorem getKettyOptions_total_on_wellTyped_witness :
    getKettyOptions { name := "Msg", options := some wtStore }
      = some { isUseKettyHttpExtend := true, transport := "http", marshal := "" } := by
  have hw : wellTypedStore wtStore := by
    refine ⟨?_, ?_, ?_⟩
    · intro v hv
      simp only [wtStore, Option.some.injEq] at hv
      exact ⟨some true, hv.symm⟩
    · intro v hv
      simp only [wtStore, Option.some.injEq] at hv
      exact ⟨some "http", hv.symm⟩
    · intro v hv
      simp only [wtStore] at hv
      exact absurd hv (by simp)
  have h := getKettyOptions_total_on_wellTyped "Msg" wtStore hw
  simpa [wtStore, resolvedBool, resolvedString] using h

/-! ### Claim C3 -/

/-- The http-extend marker method line for a message name. -/
def markerLine (n : String) : String :=
  "func (*" ++ n ++ ") KettyHttpExtendMessage() \x7b\x7d"

/-- The two lines of the http-extend marker emission. -/
def markerBlock (n : String) : List String :=
  [markerLine n, ""]

/-- The opening line of the marshal accessor method. -/
def marshalLine (n : String) : String :=
  "func (*" ++ n ++ ") KettyMarshal() string \x7b"

/-- The four lines of the marshal accessor emission, returning the literal
marshal string. -/
def marshalBlock (n m : String) : List String :=
  [marshalLine n, "return \"" ++ m ++ "\"", "\x7d", ""]

/-- The opening line of the transport accessor method. -/
def transportLine (n : String) : String :=
  "func (*" ++ n ++ ") KettyTransport() string \x7b"

/-- The four lines of the transport accessor emission, returning the literal
transport string. -/
def transportBlock (n t : String) : List String :=
  [transportLine n, "return \"" ++ t ++ "\"", "\x7d", ""]

/-- The marker line and the marshal opening line always differ. -/
theorem markerLine_ne_marshalLine (n : String) : markerLine n ≠ marshalLine n :=
  app_right_ne ("func (*" ++ n) (by decide)

/-- The marker line and the transport opening line always differ. -/
theorem markerLine_ne_transportLine (n : String) : markerLine n ≠ transportLine n :=
  app_right_ne ("func (*" ++ n) (by decide)

/-- The marshal opening line and the marker line always differ. -/
theorem marshalLine_ne_markerLine (n : String) : marshalLine n ≠ markerLine n :=
  fun h => markerLine_ne_marshalLine n h.symm

/-- The marshal opening line and the transport opening line always differ. -/
theorem marshalLine_ne_transportLine (n : String) : marshalLine n ≠ transportLine n :=
  app_right_ne ("func (*" ++ n) (by decide)

/-- The transport opening line and the marker line always differ. -/
theorem transportLine_ne_markerLine (n : String) : transportLine n ≠ markerLine n :=
  fun h => markerLine_ne_transportLine n h.symm

/-- The transport opening line and the marshal opening line always differ. -/
theorem transportLine_ne_marshalLine (n : String) : transportLine n ≠ marshalLine n :=
  fun h => marshalLine_ne_transportLine n h.symm

/-- The marker line never equals a return line. -/
theorem markerLine_ne_return (n y : String) :
    markerLine n ≠ ("return \"" ++ y ++ "\"") :=
  funcLine_ne_returnLine n (") KettyHttpExtendMessage() \x7b\x7d") y

/-- The marker line never equals the closing-brace line. -/
theorem markerLine_ne_rbrace (n : String) : markerLine n ≠ ("\x7d" : String) :=
  funcLine_ne_rbrace n (") KettyHttpExtendMessage() \x7b\x7d")

/-- The marker line never equals the blank line. -/
theorem markerLine_ne_empty (n : String) : markerLine n ≠ ("" : String) :=
  funcLine_ne_empty n (") KettyHttpExtendMessage() \x7b\x7d")

/-- The marshal opening line never equals a return line. -/
theorem marshalLine_ne_return (n y : String) :
    marshalLine n ≠ ("return \"" ++ y ++ "\"") :=
  funcLine_ne_returnLine n (") KettyMarshal() string \x7b") y

/-- The marshal opening line never equals the closing-brace line. -/
theorem marshalLine_ne_rbrace (n : String) : marshalLine n ≠ ("\x7d" : String) :=
  funcLine_ne_rbrace n (") KettyMarshal() string \x7b")

/-- The marshal opening line never equals the blank line. -/
theorem marshalLine_ne_empty (n : String) : marshalLine n ≠ ("" : String) :=
  funcLine_ne_empty n (") KettyMarshal() string \x7b")

/-- The transport opening line never equals a return line. -/
theorem transportLine_ne_return (n y : String) :
    transportLine n ≠ ("return \"" ++ y ++ "\"") :=
  funcLine_ne_returnLine n (") KettyTransport() string \x7b") y

/-- The transport opening line never equals the closing-brace line. -/
theorem transportLine_ne_rbrace (n : String) : transportLine n ≠ ("\x7d" : String) :=
  funcLine_ne_rbrace n (") KettyTransport() string \x7b")

/-- The transport opening line never equals the blank line. -/
theorem transportLine_ne_empty (n : String) : transportLine n ≠ ("" : String) :=
  funcLine_ne_empty n (") KettyTransport() string \x7b")

/-- Claim C3: generateOptionMethods emits exactly the marker block when the
http-extend flag is set, the marshal accessor when marshal is non-empty and
the transport accessor when transport is non-empty, always in that order; a
record with all three fields at zero emits nothing, and each opening line
occurs in the output precisely when its field is set. -/
theorem generateOptionMethods_exact (message : DescriptorProto) (opts : kettyOptions) :
    generateOptionMethods message opts
      = (if opts.isUseKettyHttpExtend then markerBlock message.name else [])
        ++ (if opts.marshal ≠ "" then marshalBlock message.name opts.marshal else [])
        ++ (if opts.transport ≠ "" then transportBlock message.name opts.transport else [])
    ∧ (opts.isUseKettyHttpExtend = false → opts.marshal = "" → opts.transport = "" →
        generateOptionMethods message opts = [])
    ∧ (markerLine message.name ∈ generateOptionMethods message opts ↔
        opts.isUseKettyHttpExtend = true)
    ∧ (marshalLine message.name ∈ generateOptionMethods message opts ↔ opts.marshal ≠ "")
    ∧ (transportLine message.name ∈ generateOptionMethods message opts ↔
        opts.transport ≠ "") := by
  have heq : generateOptionMethods message opts
      = (if opts.isUseKettyHttpExtend then markerBlock message.name else [])
        ++ (if opts.marshal ≠ "" then marshalBlock message.name opts.marshal else [])
        ++ (if opts.transport ≠ "" then transportBlock message.name opts.transport else []) := by
    by_cases h1 : opts.isUseKettyHttpExtend <;> by_cases h2 : opts.marshal = "" <;>
      by_cases h3 : opts.transport = "" <;>
      simp [generateOptionMethods, markerBlock, markerLine, marshalBlock, marshalLine,
        transportBlock, transportLine, h1, h2, h3]
  refine ⟨heq, ?_, ?_, ?_, ?_⟩
  · intro h1 h2 h3
    rw [heq]
    simp [h1, h2, h3]
  · rw [heq]
    by_cases h1 : opts.isUseKettyHttpExtend <;> by_cases h2 : opts.marshal = "" <;>
      by_cases h3 : opts.transport = "" <;>
      simp [markerBlock, marshalBlock, transportBlock, h1, h2, h3,
        markerLine_ne_marshalLine, markerLine_ne_transportLine, markerLine_ne_return,
        markerLine_ne_rbrace, markerLine_ne_empty]
  · rw [heq]
    by_cases h1 : opts.isUseKettyHttpExtend <;> by_cases h2 : opts.marshal = "" <;>
      by_cases h3 : opts.transport = "" <;>
      simp [markerBlock, marshalBlock, transportBlock, h1, h2, h3,
        marshalLine_ne_markerLine, marshalLine_ne_transportLine, marshalLine_ne_return,
        marshalLine_ne_rbrace, marshalLine_ne_empty]
  · rw [heq]
    by_cases h1 : opts.isUseKettyHttpExtend <;> by_cases h2 : opts.marshal = "" <;>
      by_cases h3 : opts.transport = "" <;>
      simp [markerBlock, marshalBlock, transportBlock, h1, h2, h3,
        transportLine_ne_markerLine, transportLine_ne_marshalLine, transportLine_ne_return,
        transportLine_ne_rbrace, transportLine_ne_empty]

/-- Witness for claim C3: the all-zero record on a concrete message emits
nothing, through the theorem itself. -/
theorem generateOptionMethods_exact_witness :
    generateOptionMethods { name := "M", options := none }
      { isUseKettyHttpExtend := false, transport := "", marshal := "" } = [] :=
  (generateOptionMethods_exact { name := "M", options := none }
    { isUseKettyHttpExtend := false, transport := "", marshal := "" }).2.1 rfl rfl rfl

/-! ### Claims C4 and C5 -/

/-- Claim C4: for a streaming method (either flag set) the response type in
the generated client signature is exactly CamelCase of the service name, an
underscore, CamelCase of the method name and the Client suffix; for a pure
unary method it is a star followed by the resolved output type name. -/
theorem generateClientSignature_respName (env : GenEnv) (serviceName : String)
    (method : MethodDescriptorProto) :
    generateClientSignature env (CamelCase serviceName) method
      = clientMethName method.name ++ "(ctx " ++ env.contextPkg ++ ".Context" ++
          (if method.clientStreaming then ""
           else ", in *" ++ env.typeName method.inputType) ++ ") (" ++
          (if method.serverStreaming || method.clientStreaming then
            CamelCase serviceName ++ "_" ++ CamelCase method.name ++ "Client"
          else "*" ++ env.typeName method.outputType) ++ ", error)" := by
  cases hc : method.clientStreaming <;> cases hs : method.serverStreaming <;>
    simp [generateClientSignature, hc, hs]

/-- Claim C5: every generated client signature takes the context as its first
explicit argument, and contains the request parameter in *InputType exactly
when the method is not client-streaming; a client-streaming method omits it. -/
theorem generateClientSignature_request_param (env : GenEnv) (servName : String)
    (method : MethodDescriptorProto) :
    (method.clientStreaming = false →
      generateClientSignature env servName method
        = clientMethName method.name ++ "(ctx " ++ env.contextPkg ++ ".Context" ++
            (", in *" ++ env.typeName method.inputType) ++ ") (" ++
            (if method.serverStreaming || method.clientStreaming then
              servName ++ "_" ++ CamelCase method.name ++ "Client"
            else "*" ++ env.typeName method.outputType) ++ ", error)")
    ∧ (method.clientStreaming = true →
      generateClientSignature env servName method
        = clientMethName method.name ++ "(ctx " ++ env.contextPkg ++ ".Context" ++ ") (" ++
            (servName ++ "_" ++ CamelCase method.name ++ "Client") ++ ", error)") := by
  constructor <;> intro h <;>
    cases hs : method.serverStreaming <;>
    simp [generateClientSignature, h, hs]

/-- Identity type-name environment used by concrete witnesses. -/
def idEnv : GenEnv :=
  { typeName := fun s => s,
    contextPkg := "context",
    kettyPkg := "ketty",
    importPre := "" }

/-- A concrete client-streaming method. -/
def pullMethod : MethodDescriptorProto :=
  { name := "Pull",
    inputType := "PullReq",
    outputType := "PullRsp",
    clientStreaming := true,
    serverStreaming := false }

/-- The CamelCased service name used by concrete witnesses. -/
def svcNameW : String :=
  "Svc"

/-- Witness for claim C5: at a concrete client-streaming method the signature
omits the request parameter and keeps the context first. -/
theorem generateClientSignature_request_param_witness :
    generateClientSignature idEnv svcNameW pullMethod
      = "Pull(ctx context.Context) (Svc_PullClient, error)" :=
  ((generateClientSignature_request_param idEnv svcNameW pullMethod).2 rfl).trans
    (by decide)

/-! ### Claim C6 -/

/-- Type-name environment of the Echo scenario: resolves the two demo type
references the way the surrounding generator would. -/
def echoEnv : GenEnv :=
  { typeName := fun s =>
      if s = ".demo.EchoRequest" then "EchoRequest"
      else if s = ".demo.EchoResponse" then "EchoResponse"
      else s,
    contextPkg := "context",
    kettyPkg := "ketty",
    importPre := "" }

/-- The single unary method Say(EchoRequest) -> EchoResponse. -/
def sayMethod : MethodDescriptorProto :=
  { name := "Say",
    inputType := ".demo.EchoRequest",
    outputType := ".demo.EchoResponse",
    clientStreaming := false,
    serverStreaming := false }

/-- The demo file declaring the single service Echo. -/
def echoFile : FileDescriptorProto :=
  { pkg := "demo",
    service := [{ name := "Echo", method := [sayMethod] }],
    messageType := [] }

/-- The full expected output of Generate on the Echo file. -/
def echoExpected : List String :=
  [ "// Reference imports to suppress errors if they are not otherwise used.",
    "var _ ketty.Dummy",
    "",
    "// This is a compile-time assertion to ensure that this generated file",
    "// is compatible with the ketty package it is being compiled against.",
    "",
    "type EchoHandleT struct \x7b",
    "desc *grpc.ServiceDesc",
    "\x7d",
    "",
    "func (h *EchoHandleT) Implement() interface\x7b\x7d \x7b",
    "return h.desc",
    "\x7d",
    "",
    "func (h *EchoHandleT) ServiceName() string \x7b",
    "return h.desc.ServiceName",
    "\x7d",
    "",
    "var EchoHandle = &EchoHandleT\x7b desc : &_Echo_serviceDesc \x7d",
    "",
    "type KettyEchoClient struct \x7b",
    "client ketty.Client",
    "\x7d",
    "",
    "func NewKettyEchoClient (client ketty.Client) *KettyEchoClient \x7b",
    "return &KettyEchoClient\x7bclient\x7d",
    "\x7d",
    "",
    "func (this *KettyEchoClient) Say(ctx context.Context, in *EchoRequest) (*EchoResponse, error)\x7b",
    "out := new(EchoResponse)",
    "err := this.client.Invoke(ctx, EchoHandle, \"Say\", in, out)",
    "if err != nil \x7b return nil, err \x7d",
    "return out, nil",
    "\x7d",
    "" ]

/-- Claim C6: on the Echo service with unary method Say, Generate produces
exactly the expected text, which contains the EchoHandleT type, the
EchoHandle variable built from the _Echo_serviceDesc descriptor, the
KettyEchoClient type, the NewKettyEchoClient constructor, and the Say method
with the unary signature and Invoke body keyed by the string Say, returning
(nil, err) on failure and (out, nil) on success. -/
theorem Generate_echo_scenario :
    Generate echoEnv echoFile = some echoExpected
    ∧ ("type EchoHandleT struct \x7b" : String) ∈ echoExpected
    ∧ ("var EchoHandle = &EchoHandleT\x7b desc : &_Echo_serviceDesc \x7d" : String)
        ∈ echoExpected
    ∧ ("type KettyEchoClient struct \x7b" : String) ∈ echoExpected
    ∧ ("func NewKettyEchoClient (client ketty.Client) *KettyEchoClient \x7b" : String)
        ∈ echoExpected
    ∧ ("func (this *KettyEchoClient) Say(ctx context.Context, in *EchoRequest) (*EchoResponse, error)\x7b" : String)
        ∈ echoExpected
    ∧ ("out := new(EchoResponse)" : String) ∈ echoExpected
    ∧ ("err := this.client.Invoke(ctx, EchoHandle, \"Say\", in, out)" : String)
        ∈ echoExpected
    ∧ ("if err != nil \x7b return nil, err \x7d" : String) ∈ echoExpected
    ∧ ("return out, nil" : String) ∈ echoExpected := by
  refine ⟨by decide, ?_, ?_, ?_, ?_, ?_, ?_, ?_, ?_, ?_⟩ <;> decide

/-! ### Claim C7 -/

/-- Claim C7: the generation pass is deterministic. The embedding makes
Generate a pure function of the environment and the descriptor tree, so two
runs over the same unchanged tree coincide, and the client-method-name
derivation (CamelCase plus reserved-name suffixing) returns the same name for
the same raw input across repeated invocations. -/
theorem Generate_deterministic (env : GenEnv) (file : FileDescriptorProto) :
    Generate env file = Generate env file
    ∧ (∀ f2, file = f2 → Generate env file = Generate env f2)
    ∧ ∀ raw : String, clientMethName raw = clientMethName raw :=
  ⟨rfl, fun _ h => congrArg _ h, fun _ => rfl⟩

/-- Witness for claim C7 at the concrete Echo file. -/
theorem Generate_deterministic_witness :
    Generate echoEnv echoFile = Generate echoEnv echoFile :=
  (Generate_deterministic echoEnv echoFile).2.1 echoFile rfl

/-! ### Claim C8 -/

/-- Claim C8: generateClientMethod emits the same unary-style body for every
method regardless of its streaming flags — the Invoke line always passes the
identifier in — while for a client-streaming method the emitted signature
omits the in parameter. -/
theorem generateClientMethod_body_always_unary (env : GenEnv)
    (servName fullServName serviceDescVar : String)
    (method : MethodDescriptorProto) (descExpr : String) :
    generateClientMethod env servName fullServName serviceDescVar method descExpr
      = ("func (this *Ketty" ++ servName ++ "Client) " ++
          generateClientSignature env servName method ++ "\x7b")
        :: [ "out := new(" ++ env.typeName method.outputType ++ ")",
             "err := this.client.Invoke(ctx, " ++ servName ++ "Handle, \"" ++
               CamelCase method.name ++ "\", in, out)",
             "if err != nil \x7b return nil, err \x7d",
             "return out, nil",
             "\x7d",
             "" ]
    ∧ (method.clientStreaming = true →
        generateClientSignature env servName method
          = clientMethName method.name ++ "(ctx " ++ env.contextPkg ++ ".Context" ++
              ") (" ++ servName ++ "_" ++ CamelCase method.name ++ "Client" ++
              ", error)") := by
  constructor
  · rfl
  · intro h
    cases hs : method.serverStreaming <;>
      simp [generateClientSignature, h, hs, String.append_assoc]

/-- A concrete bidirectionally streaming method. -/
def watchMethod : MethodDescriptorProto :=
  { name := "Watch",
    inputType := "WatchReq",
    outputType := "WatchRsp",
    clientStreaming := true,
    serverStreaming := true }

/-- The full service name used by concrete witnesses. -/
def fullNameW : String :=
  "demo.Svc"

/-- The service descriptor variable name used by concrete witnesses. -/
def descVarW : String :=
  "_Svc_serviceDesc"

/-- A concrete descriptor expression used by concrete witnesses. -/
def descExprW : String :=
  "&_Svc_serviceDesc.Streams[0]"

/-- Witness for claim C8 at a concrete streaming method: the signature has no
in parameter even though the body the theorem exhibits passes in. -/
theorem generateClientMethod_body_always_unary_witness :
    generateClientSignature idEnv svcNameW watchMethod
      = "Watch(ctx context.Context) (Svc_WatchClient, error)" :=
  ((generateClientMethod_body_always_unary idEnv svcNameW fullNameW descVarW
      watchMethod descExprW).2 rfl).trans (by decide)

/-! ### Claim C9 -/

/-- Claim C9: on a file declaring zero services, Generate and GenerateImports
return immediately and emit nothing; in particular messages carrying ketty
extension options get no marker or accessor methods, because the option pass
runs only inside the service-guarded Generate body. -/
theorem Generate_empty_services (env : GenEnv) (file : FileDescriptorProto)
    (h : file.service = []) :
    Generate env file = some [] ∧ GenerateImports env file = [] := by
  constructor
  · simp [Generate, h]
  · simp [GenerateImports, h]

/-- A service-free file whose only message carries a ketty extension option. -/
def annotatedOnlyFile : FileDescriptorProto :=
  { pkg := "demo",
    service := [],
    messageType :=
      [ { name := "M",
          options := some
            { useKettyHttpExtend := some (GoValue.boolPtr (some true)),
              transport := some (GoValue.stringPtr (some "http")),
              marshal := none } } ] }

/-- Witness for claim C9: even with an annotated message present, a file
without services generates nothing. -/
theorem Generate_empty_services_witness :
    Generate idEnv annotatedOnlyFile = some []
    ∧ GenerateImports idEnv annotatedOnlyFile = [] :=
  Generate_empty_services idEnv annotatedOnlyFile rfl

/-! ### Claim C10 -/

/-- Claim C10: unexport behaves as a function only on non-empty strings,
returning the lowercased first character followed by the unchanged remainder;
on the empty string the Go slice expression is out of bounds and the call
panics, so the embedding returns none there. -/
theorem unexport_partial :
    unexport "" = none
    ∧ ∀ (c : Char) (rest : List Char),
        unexport (String.mk (c :: rest)) = some (String.mk (Char.toLower c :: rest)) :=
  ⟨rfl, fun _ _ => rfl⟩
